import Mathlib

/-!
Verification development for the lightbulb multi-chain blockspace auction
engine.  The definitions below are shallow embeddings of the Rust source:
pure functions become Lean functions, stateful operations become explicit
state passing, and the library heap / unstable sort are modelled by their
documented contracts as relations.  Machine integers (`u64`) are modelled
as `Nat`; none of the verified properties involve overflow.
-/

/- ---------------------------------------------------------------------
Domain types, translated from src/domain.rs
--------------------------------------------------------------------- -/

/-- `Tx` from src/domain.rs: an opaque transaction payload. -/
structure Tx where
  tx_data : String
deriving DecidableEq

/-- `Bid` from src/domain.rs. -/
structure Bid where
  bidder_addr : String
  bid_amount : Nat
  bidder_signature : String
  tx_list : List Tx
deriving DecidableEq

/-- `ChainInfo` from src/domain.rs. -/
structure ChainInfo where
  gas_limit : Nat
  registered_sellers : List String
deriving DecidableEq

/-- `type ChainId = u64` from src/domain.rs. -/
abbrev ChainId := Nat

/-- `type AuctionId = String` from src/domain.rs. -/
abbrev AuctionId := String

/-- `AuctionInfo` from src/domain.rs. -/
structure AuctionInfo where
  id : AuctionId
  chain_id : ChainId
  block_number : Nat
  seller_address : String
  blockspace_size : Nat
  start_time : Nat
  end_time : Nat
  seller_signature : String
deriving DecidableEq

/-- `AuctionState` from src/domain.rs. -/
structure AuctionState where
  auction_info : AuctionInfo
  highest_bid : Nat
  winner : Option String
  bids : List Bid
  is_ended : Bool
deriving DecidableEq

/-- `AuctionState::new` from src/domain.rs. -/
def AuctionState.new (auction_info : AuctionInfo) : AuctionState :=
  { auction_info := auction_info
    highest_bid := 0
    winner := none
    bids := []
    is_ended := false }

/-- `impl Ord for AuctionInfo` from src/domain.rs: compares only `start_time`. -/
def AuctionInfo.cmp (a b : AuctionInfo) : Ordering :=
  compare a.start_time b.start_time

/-- `impl PartialEq for AuctionInfo` from src/domain.rs: equality is equality
of `start_time` alone. -/
def AuctionInfo.eqImpl (a b : AuctionInfo) : Bool :=
  a.start_time == b.start_time

/-- `AuctionError` from src/utils/errors.rs. -/
inductive AuctionError where
  | InvalidChainId (c : ChainId)
  | InvalidAuctionId (a : AuctionId)
  | NoAuctions
  | SellerNotRegistered
  | InvalidSellerSignature
  | InvalidGasLimit
  | InvalidAuctionTime
  | InvalidBuyerSignature
  | InsufficientFunds
  | AuctionNotStarted
  | AuctionEnded
deriving DecidableEq

/-- `RegistryError` from src/utils/errors.rs. -/
inductive RegistryError where
  | InvalidChainId (c : ChainId)
  | SellerNotRegistered (s : String)
  | InvalidSellerSignature
  | InvalidGasLimit
  | InvalidAuctionTime
  | ChainAlreadyRegistered (c : ChainId)
deriving DecidableEq

/- ---------------------------------------------------------------------
Worker operations, translated from src/core/auction/worker.rs.
The worker state `Arc<RwLock<Option<AuctionState>>>` is modelled by
passing the `Option AuctionState` in and out explicitly.
--------------------------------------------------------------------- -/

/-- `AuctionWorker::start_auction` from src/core/auction/worker.rs
(lines 57-70): unconditionally replaces the held state with a fresh
`AuctionState::new(info)` and returns `Ok(())`. -/
def AuctionWorker.start_auction (state : Option AuctionState) (auction_id : AuctionId)
    (info : AuctionInfo) : Except AuctionError Unit × Option AuctionState :=
  let _ := state
  let _ := auction_id
  (Except.ok (), some (AuctionState.new info))

/-- `AuctionWorker::submit_bid` from src/core/auction/worker.rs (lines
73-98): `NoAuctions` when no state is held; otherwise the `is_ended`
check comes first, then the auction-id check, then the bid is pushed. -/
def AuctionWorker.submit_bid (chain_id : ChainId) (state : Option AuctionState)
    (auction_id : AuctionId) (bid : Bid) :
    Except AuctionError String × Option AuctionState :=
  match state with
  | none => (Except.error AuctionError.NoAuctions, none)
  | some auction_state =>
    if auction_state.is_ended then
      (Except.error AuctionError.AuctionEnded, some auction_state)
    else if auction_state.auction_info.id ≠ auction_id then
      (Except.error (AuctionError.InvalidAuctionId auction_id), some auction_state)
    else
      (Except.ok s!"[Worker {chain_id}] ACK: Auction {auction_id} bid accepted.",
       some { auction_state with bids := auction_state.bids ++ [bid] })

/- ---------------------------------------------------------------------
Chain registry, translated from src/services/registry/chain.rs.
The `HashMap<ChainId, ChainInfo>` is modelled as an association list.
--------------------------------------------------------------------- -/

/-- The `chain_info_map` of `ChainRegistry` from src/services/registry/chain.rs. -/
abbrev ChainRegistry := List (ChainId × ChainInfo)

/-- `ChainRegistry::validate_chain_id` from src/services/registry/chain.rs. -/
def ChainRegistry.validate_chain_id (r : ChainRegistry) (chain_id : ChainId) : Bool :=
  (r.lookup chain_id).isSome

/-- `ChainRegistry::is_valid_seller` from src/services/registry/chain.rs. -/
def ChainRegistry.is_valid_seller (r : ChainRegistry) (chain_id : ChainId)
    (seller : String) : Bool :=
  match r.lookup chain_id with
  | some info => info.registered_sellers.contains seller
  | none => false

/-- `ChainRegistry::get_max_gas_limit` from src/services/registry/chain.rs. -/
def ChainRegistry.get_max_gas_limit (r : ChainRegistry) (chain_id : ChainId) : Option Nat :=
  (r.lookup chain_id).map (fun info => info.gas_limit)

/- ---------------------------------------------------------------------
Auction registry queues, translated from src/services/registry/auction.rs.
`HashMap<ChainId, BinaryHeap<Reverse<AuctionInfo>>>` is modelled as an
association list mapping each registered chain to the multiset of queued
`AuctionInfo`s (as a list).  Heap pops and peeks are modelled relationally
below by the `BinaryHeap` contract: with `Reverse` and the source `Ord`
(ascending `start_time`), `peek`/`pop` yield an element whose
`start_time` is minimal in the queue.
--------------------------------------------------------------------- -/

/-- The `auction_queues` of `AuctionRegistry` from src/services/registry/auction.rs. -/
abbrev AuctionQueues := List (ChainId × List AuctionInfo)

/-- Replace the queue stored for chain `c` (the chain is assumed present;
absent chains are untouched, mirroring `get_mut`). -/
def AuctionQueues.set (q : AuctionQueues) (c : ChainId) (l : List AuctionInfo) :
    AuctionQueues :=
  q.map (fun p => if p.1 = c then (c, l) else p)

/-- `AuctionRegistry::store_auction_info` from src/services/registry/auction.rs
(lines 37-45): fails with `InvalidChainId` when the chain has no queue,
otherwise pushes the info onto the chain's heap. -/
def AuctionQueues.store_auction_info (q : AuctionQueues) (info : AuctionInfo) :
    Except RegistryError AuctionQueues :=
  match q.lookup info.chain_id with
  | none => Except.error (RegistryError.InvalidChainId info.chain_id)
  | some queue => Except.ok (AuctionQueues.set q info.chain_id (info :: queue))

/-- `RegistryService::validate_auction_info` from src/services/registry/mod.rs
(lines 88-107): checks that the chain is known, then that the seller is
registered; nothing else. -/
def RegistryService.validate_auction_info (chains : ChainRegistry)
    (info : AuctionInfo) : Except RegistryError Unit :=
  if !(chains.validate_chain_id info.chain_id) then
    Except.error (RegistryError.InvalidChainId info.chain_id)
  else if !(chains.is_valid_seller info.chain_id info.seller_address) then
    Except.error (RegistryError.SellerNotRegistered info.seller_address)
  else
    Except.ok ()

/-- `RegistryService::submit_auction_info` from src/services/registry/mod.rs
(lines 75-85): validate, then store into the chain's priority queue. -/
def RegistryService.submit_auction_info (chains : ChainRegistry)
    (queues : AuctionQueues) (info : AuctionInfo) :
    Except RegistryError AuctionQueues :=
  match RegistryService.validate_auction_info chains info with
  | Except.error e => Except.error e
  | Except.ok _ => AuctionQueues.store_auction_info queues info

/-- `SlaRegistry::validate_timings` from src/services/registry/sla.rs
(lines 114-119).  Note that the `sla` module is not declared in
src/services/registry/mod.rs, so this check is not reachable from
`RegistryService`. -/
def SlaRegistry.validate_timings (start_time end_time : Nat) :
    Except AuctionError Unit :=
  if end_time < start_time + 500 then
    Except.error AuctionError.InvalidAuctionTime
  else
    Except.ok ()

/- ---------------------------------------------------------------------
Experimental per-auction manager, translated from
src/services/auction/manager.rs (the variant holding a
`HashMap<ChainId, HashMap<AuctionId, AuctionState>>`).
--------------------------------------------------------------------- -/

/-- `verify_signature` from src/utils/helpers.rs: the mock always accepts. -/
def verify_signature (addr signature : String) : Bool :=
  let _ := addr
  let _ := signature
  true

/-- The `auctions` store of the services-layer `AuctionManager`. -/
abbrev AuctionsStore := List (ChainId × List (AuctionId × AuctionState))

/-- `AuctionManager::validate_buyer_signature` from
src/services/auction/manager.rs (lines 267-273). -/
def ServicesAuctionManager.validate_buyer_signature (bid : Bid) :
    Except AuctionError Unit :=
  if !(verify_signature bid.bidder_addr bid.bidder_signature) then
    Except.error AuctionError.InvalidBuyerSignature
  else
    Except.ok ()

/-- `AuctionManager::validate_bid_amount` from
src/services/auction/manager.rs (lines 276-282). -/
def ServicesAuctionManager.validate_bid_amount (bid_amount : Nat) :
    Except AuctionError Unit :=
  if bid_amount > 1000000000 then
    Except.error AuctionError.InsufficientFunds
  else
    Except.ok ()

/-- Replace the state stored for auction `aid` in one chain's map. -/
def setAuctionState (l : List (AuctionId × AuctionState)) (aid : AuctionId)
    (st : AuctionState) : List (AuctionId × AuctionState) :=
  l.map (fun p => if p.1 = aid then (aid, st) else p)

/-- `AuctionManager::record_bid` from src/services/auction/manager.rs
(lines 285-310). -/
def ServicesAuctionManager.record_bid (auctions : AuctionsStore) (chain_id : ChainId)
    (auction_id : AuctionId) (bid : Bid) :
    Except AuctionError (String × AuctionsStore) :=
  match auctions.lookup chain_id with
  | none => Except.error (AuctionError.InvalidChainId chain_id)
  | some chain_auctions =>
    match chain_auctions.lookup auction_id with
    | none => Except.error (AuctionError.InvalidAuctionId auction_id)
    | some auction_state =>
      if auction_state.is_ended then
        Except.error AuctionError.AuctionEnded
      else
        Except.ok
          (s!"ACK: Auction {auction_id} on Chain {chain_id} bid accepted.",
           auctions.map (fun p =>
             if p.1 = chain_id then
               (chain_id, setAuctionState chain_auctions auction_id
                 { auction_state with bids := auction_state.bids ++ [bid] })
             else p))

/-- `AuctionManager::submit_bid` from src/services/auction/manager.rs
(lines 135-149): buyer-signature check, then the bid-amount admission
check, then `record_bid`. -/
def ServicesAuctionManager.submit_bid (auctions : AuctionsStore) (chain_id : ChainId)
    (auction_id : AuctionId) (bid : Bid) :
    Except AuctionError (String × AuctionsStore) :=
  match ServicesAuctionManager.validate_buyer_signature bid with
  | Except.error e => Except.error e
  | Except.ok _ =>
    match ServicesAuctionManager.validate_bid_amount bid.bid_amount with
    | Except.error e => Except.error e
    | Except.ok _ => ServicesAuctionManager.record_bid auctions chain_id auction_id bid

/- ---------------------------------------------------------------------
Heap contract.  `BinaryHeap<Reverse<AuctionInfo>>` with the source `Ord`
(ascending `start_time`) guarantees that `peek` returns a queued element
of minimal `start_time` and that `pop` removes exactly that element.
Which element is returned among several with equal minimal `start_time`
is not specified, so peek and pop are relations over the queue contents.
--------------------------------------------------------------------- -/

/-- The `BinaryHeap::peek` contract under `Reverse` ordering: the peeked
element is queued and minimal in `start_time`. -/
def heapPeek (q : List AuctionInfo) (x : AuctionInfo) : Prop :=
  x ∈ q ∧ ∀ y ∈ q, x.start_time ≤ y.start_time

/-- The `BinaryHeap::pop` contract under `Reverse` ordering: the popped
element is minimal in `start_time` and the remaining contents are the
queue minus that one occurrence. -/
def heapPopRel (q : List AuctionInfo) (x : AuctionInfo) (q' : List AuctionInfo) : Prop :=
  (∀ y ∈ q, x.start_time ≤ y.start_time) ∧ q.Perm (x :: q')

/-- A sequence of repeated `AuctionRegistry::pop_next_auction` calls
(src/services/registry/auction.rs lines 30-35) on one chain's queue,
with no interleaved insertions: `PopTrace q xs` holds when `xs` is a
possible sequence of popped `AuctionInfo`s starting from contents `q`. -/
inductive PopTrace : List AuctionInfo → List AuctionInfo → Prop where
  | nil (q : List AuctionInfo) : PopTrace q []
  | cons {q : List AuctionInfo} {x : AuctionInfo} {q' xs : List AuctionInfo} :
      heapPopRel q x q' → PopTrace q' xs → PopTrace q (x :: xs)

/- ---------------------------------------------------------------------
Manager scheduling, translated from src/core/auction/manager.rs.
--------------------------------------------------------------------- -/

/-- The parts of `AuctionManager` state that `start_next_auction` reads
and writes: the registry queues, the per-chain workers (each holding an
`Option AuctionState`), and the `ongoing_auctions` index. -/
structure ManagerState where
  queues : AuctionQueues
  workers : List (ChainId × Option AuctionState)
  ongoing : List (ChainId × AuctionInfo)
deriving DecidableEq

/-- Contents of one chain's registry queue (`get_next_auction_info`
yields `None` both for an unknown chain and for an empty queue). -/
def ManagerState.queueOf (st : ManagerState) (c : ChainId) : List AuctionInfo :=
  (st.queues.lookup c).getD []

/-- `HashMap::insert` on the `ongoing_auctions` index. -/
def upsertOngoing (m : List (ChainId × AuctionInfo)) (c : ChainId) (v : AuctionInfo) :
    List (ChainId × AuctionInfo) :=
  if (m.lookup c).isSome then m.map (fun p => if p.1 = c then (c, v) else p)
  else (c, v) :: m

/-- Replace the state held by chain `c`'s worker. -/
def setWorker (m : List (ChainId × Option AuctionState)) (c : ChainId)
    (v : Option AuctionState) : List (ChainId × Option AuctionState) :=
  m.map (fun p => if p.1 = c then (c, v) else p)

/-- One call of `AuctionManager::start_next_auction` from
src/core/auction/manager.rs (lines 149-204), at wall-clock `now`.
The four constructors mirror the four exits of the source: peek finds
nothing; the peeked auction is not yet due; the auction is popped but
the chain has no worker; the auction is popped, handed to the worker
via `start_auction`, and recorded in `ongoing_auctions`. -/
inductive StartNext : Nat → ManagerState → ChainId → Option AuctionId → ManagerState → Prop where
  | emptyQueue {now : Nat} {st : ManagerState} {c : ChainId} :
      st.queueOf c = [] → StartNext now st c none st
  | notDue {now : Nat} {st : ManagerState} {c : ChainId} {x : AuctionInfo} :
      heapPeek (st.queueOf c) x → now < x.start_time →
      StartNext now st c none st
  | noWorker {now : Nat} {st : ManagerState} {c : ChainId} {x : AuctionInfo}
      {q' : List AuctionInfo} :
      heapPeek (st.queueOf c) x → x.start_time ≤ now →
      heapPopRel (st.queueOf c) x q' → st.workers.lookup c = none →
      StartNext now st c none
        { st with queues := AuctionQueues.set st.queues c q' }
  | started {now : Nat} {st : ManagerState} {c : ChainId} {x : AuctionInfo}
      {q' : List AuctionInfo} {w : Option AuctionState} :
      heapPeek (st.queueOf c) x → x.start_time ≤ now →
      heapPopRel (st.queueOf c) x q' → st.workers.lookup c = some w →
      StartNext now st c (some x.id)
        { st with
            queues := AuctionQueues.set st.queues c q'
            workers := setWorker st.workers c (AuctionWorker.start_auction w x.id x).2
            ongoing := upsertOngoing st.ongoing c x }

/- ---------------------------------------------------------------------
Worker tick pass, translated from src/core/auction/worker.rs
`process_auction` (lines 146-193).  The source sorts the bids with
`sort_unstable_by(|a, b| b.bid_amount.cmp(&a.bid_amount))`; the
`sort_unstable_by` contract guarantees a permutation that is sorted by
the comparator and nothing about the relative order of equal elements,
so the sorted list is related to the input, not computed from it.
--------------------------------------------------------------------- -/

/-- The contract of `Vec::sort_unstable_by` with comparator
`b.bid_amount.cmp(&a.bid_amount)`: the output is some permutation of
the input that is non-increasing in `bid_amount`. -/
def sortedDescBids (l sorted : List Bid) : Prop :=
  l.Perm sorted ∧ sorted.Sorted (fun a b => b.bid_amount ≤ a.bid_amount)

/-- The end-of-auction update of `process_auction` (worker.rs lines
163-179): mark ended, install the sorted bids, and take the first sorted
bid (if any) as `highest_bid` / `winner`. -/
def endedUpdate (st : AuctionState) (sorted : List Bid) : AuctionState :=
  match sorted with
  | [] => { st with is_ended := true, bids := sorted }
  | top :: rest =>
    { st with
        is_ended := true
        bids := top :: rest
        highest_bid := top.bid_amount
        winner := some top.bidder_addr }

/-- The in-window update of `process_auction` (worker.rs lines 181-190):
refresh the sorted bids and the current leader. -/
def runningUpdate (st : AuctionState) (sorted : List Bid) : AuctionState :=
  match sorted with
  | [] => { st with bids := sorted }
  | top :: rest =>
    { st with
        bids := top :: rest
        highest_bid := top.bid_amount
        winner := some top.bidder_addr }

/-- One invocation of `AuctionWorker::process_auction` from
src/core/auction/worker.rs (lines 146-193) at wall-clock `now`,
relating the held state before and after.  Message-bus sends carry no
state and are omitted. -/
inductive ProcessAuction : Nat → Option AuctionState → Option AuctionState → Prop where
  | idle {now : Nat} : ProcessAuction now none none
  | alreadyEnded {now : Nat} {st : AuctionState} :
      st.is_ended = true → ProcessAuction now (some st) (some st)
  | notStarted {now : Nat} {st : AuctionState} :
      st.is_ended = false → now < st.auction_info.start_time →
      ProcessAuction now (some st) (some st)
  | ends {now : Nat} {st : AuctionState} {sorted : List Bid} :
      st.is_ended = false → st.auction_info.start_time ≤ now →
      st.auction_info.end_time ≤ now → sortedDescBids st.bids sorted →
      ProcessAuction now (some st) (some (endedUpdate st sorted))
  | running {now : Nat} {st : AuctionState} {sorted : List Bid} :
      st.is_ended = false → st.auction_info.start_time ≤ now →
      now < st.auction_info.end_time → sortedDescBids st.bids sorted →
      ProcessAuction now (some st) (some (runningUpdate st sorted))

/-- The bidder of the earliest-inserted bid in `l` whose amount is `amt`
(`List.find?` returns the first match, i.e. the smallest index). -/
def firstBidderWith (l : List Bid) (amt : Nat) : Option String :=
  (l.find? (fun b => b.bid_amount == amt)).map (fun b => b.bidder_addr)

/- ---------------------------------------------------------------------
SHA-256 and the auction id, translated from src/core/utils/helpers.rs
`compute_hash` and src/domain.rs `AuctionInfo::new`.  The `sha2` crate's
`Sha256` is the standard FIPS 180-4 SHA-256, implemented here over byte
lists (`Nat` values below 256); incremental `update` calls accumulate
bytes, so hashing several slices equals hashing their concatenation.
--------------------------------------------------------------------- -/

/-- Addition modulo 2^32. -/
def add32 (x y : Nat) : Nat := (x + y) % 4294967296

/-- Right rotation of a 32-bit word. -/
def rotr32 (n x : Nat) : Nat := ((x >>> n) ||| (x <<< (32 - n))) % 4294967296

/-- Bitwise complement within 32 bits. -/
def not32 (x : Nat) : Nat := x ^^^ 4294967295

/-- The SHA-256 round constants. -/
def sha256K : List Nat :=
  [1116352408, 1899447441, 3049323471, 3921009573, 961987163,
   1508970993, 2453635748, 2870763221, 3624381080, 310598401,
   607225278, 1426881987, 1925078388, 2162078206, 2614888103,
   3248222580, 3835390401, 4022224774, 264347078, 604807628,
   770255983, 1249150122, 1555081692, 1996064986, 2554220882,
   2821834349, 2952996808, 3210313671, 3336571891, 3584528711,
   113926993, 338241895, 666307205, 773529912, 1294757372,
   1396182291, 1695183700, 1986661051, 2177026350, 2456956037,
   2730485921, 2820302411, 3259730800, 3345764771, 3516065817,
   3600352804, 4094571909, 275423344, 430227734, 506948616,
   659060556, 883997877, 958139571, 1322822218, 1537002063,
   1747873779, 1955562222, 2024104815, 2227730452, 2361852424,
   2428436474, 2756734187, 3204031479, 3329325298]

/-- The SHA-256 initial hash value. -/
def sha256H0 : List Nat :=
  [1779033703, 3144134277, 1013904242, 2773480762,
   1359893119, 2600822924, 528734635, 1541459225]

/-- Big-endian 8-byte encoding of a `u64` (`u64::to_be_bytes`). -/
def beBytes8 (n : Nat) : List Nat :=
  [(n >>> 56) % 256, (n >>> 48) % 256, (n >>> 40) % 256, (n >>> 32) % 256,
   (n >>> 24) % 256, (n >>> 16) % 256, (n >>> 8) % 256, n % 256]

/-- Big-endian 4-byte encoding of a 32-bit word. -/
def beBytes4 (n : Nat) : List Nat :=
  [(n >>> 24) % 256, (n >>> 16) % 256, (n >>> 8) % 256, n % 256]

/-- Big-endian word assembled from bytes. -/
def beWord (bytes : List Nat) : Nat :=
  bytes.foldl (fun acc b => acc * 256 + b) 0

/-- SHA-256 padding: append `0x80`, zero bytes up to 56 mod 64, and the
message length in bits as 8 big-endian bytes. -/
def sha256Pad (msg : List Nat) : List Nat :=
  msg ++ [128] ++ List.replicate ((119 - (msg.length % 64)) % 64) 0
      ++ beBytes8 (8 * msg.length)

/-- Split a padded message into 64-byte blocks. -/
def chunks64 (l : List Nat) : List (List Nat) :=
  (List.range (l.length / 64)).map (fun i => ((l.drop (64 * i)).take 64))

/-- The SHA-256 message schedule: 16 block words extended to 64. -/
def sha256Schedule (block : List Nat) : List Nat :=
  let w0 := (List.range 16).map (fun i => beWord ((block.drop (4 * i)).take 4))
  (List.range 48).foldl
    (fun w _ =>
      let i := w.length
      let s0 :=
        (rotr32 7 (w.getD (i - 15) 0)) ^^^ (rotr32 18 (w.getD (i - 15) 0))
          ^^^ ((w.getD (i - 15) 0) >>> 3)
      let s1 :=
        (rotr32 17 (w.getD (i - 2) 0)) ^^^ (rotr32 19 (w.getD (i - 2) 0))
          ^^^ ((w.getD (i - 2) 0) >>> 10)
      w ++ [add32 (add32 (w.getD (i - 16) 0) s0) (add32 (w.getD (i - 7) 0) s1)])
    w0

/-- One SHA-256 compression step over the eight working registers. -/
def sha256Round (w : List Nat) (regs : List Nat) (i : Nat) : List Nat :=
  match regs with
  | [a, b, c, d, e, f, g, h] =>
    let S1 := (rotr32 6 e) ^^^ (rotr32 11 e) ^^^ (rotr32 25 e)
    let ch := (e &&& f) ^^^ ((not32 e) &&& g)
    let temp1 := add32 (add32 (add32 h S1) (add32 ch (sha256K.getD i 0))) (w.getD i 0)
    let S0 := (rotr32 2 a) ^^^ (rotr32 13 a) ^^^ (rotr32 22 a)
    let maj := ((a &&& b) ^^^ (a &&& c)) ^^^ (b &&& c)
    let temp2 := add32 S0 maj
    [add32 temp1 temp2, a, b, c, add32 d temp1, e, f, g]
  | other => other

/-- SHA-256 compression of one 64-byte block into the hash state. -/
def sha256Compress (hs : List Nat) (block : List Nat) : List Nat :=
  let w := sha256Schedule block
  let r := (List.range 64).foldl (sha256Round w) hs
  (List.range 8).map (fun i => add32 (hs.getD i 0) (r.getD i 0))

/-- SHA-256 of a byte list, as 32 bytes. -/
def sha256 (msg : List Nat) : List Nat :=
  let final := (chunks64 (sha256Pad msg)).foldl sha256Compress sha256H0
  final.foldr (fun word acc => beBytes4 word ++ acc) []

/-- One lowercase hexadecimal digit. -/
def hexDigit (n : Nat) : Char :=
  (String.toList "0123456789abcdef").getD n '0'

/-- `hex::encode`: lowercase hexadecimal encoding of a byte list. -/
def hexEncode (bytes : List Nat) : String :=
  String.mk (bytes.foldr (fun b acc => hexDigit (b / 16) :: hexDigit (b % 16) :: acc) [])

/-- UTF-8 bytes of a string (`str::as_bytes`). -/
def strBytes (s : String) : List Nat :=
  s.toUTF8.toList.map (fun b => b.toNat)

/-- `compute_hash` from src/core/utils/helpers.rs (lines 18-25): feed each
input slice to the hasher in order and finalize; incremental hashing
makes this SHA-256 of the concatenation of the slices. -/
def compute_hash (inputs : List (List Nat)) : String :=
  hexEncode (sha256 (inputs.foldl (fun acc i => acc ++ i) []))

/-- `AuctionInfo::new` from src/domain.rs (lines 40-67). -/
def AuctionInfo.new (chain_id : ChainId) (block_number : Nat) (seller_address : String)
    (blockspace_size start_time end_time : Nat) (seller_signature : String) :
    AuctionInfo :=
  { id := compute_hash
      [beBytes8 chain_id, beBytes8 block_number, strBytes seller_address,
       beBytes8 blockspace_size, beBytes8 start_time, beBytes8 end_time,
       strBytes seller_signature]
    chain_id := chain_id
    block_number := block_number
    seller_address := seller_address
    blockspace_size := blockspace_size
    start_time := start_time
    end_time := end_time
    seller_signature := seller_signature }

/-- The AuctionId format stated by the specification (§6): lowercase hex
of SHA-256 of the concatenation, in order, of chain_id (8B big-endian),
block_number (8B big-endian), the seller address bytes, blockspace_size
(8B big-endian), start_time (8B big-endian), end_time (8B big-endian),
and the seller-signature bytes. -/
def specAuctionId (chain_id : ChainId) (block_number : Nat) (seller_address : String)
    (blockspace_size start_time end_time : Nat) (seller_signature : String) : String :=
  hexEncode (sha256
    (beBytes8 chain_id ++ beBytes8 block_number ++ strBytes seller_address
      ++ beBytes8 blockspace_size ++ beBytes8 start_time ++ beBytes8 end_time
      ++ strBytes seller_signature))

/- ---------------------------------------------------------------------
Concrete sample data used by counterexamples and witnesses.
--------------------------------------------------------------------- -/

/-- A concrete `AuctionInfo` on chain 1 with seller `0xS`. -/
def mkInfo (idStr : String) (blockspace startT endT : Nat) : AuctionInfo :=
  { id := idStr
    chain_id := 1
    block_number := 1
    seller_address := "0xS"
    blockspace_size := blockspace
    start_time := startT
    end_time := endT
    seller_signature := "sig" }

/-- A concrete `Bid` with an empty transaction list. -/
def mkBid (addr : String) (amount : Nat) : Bid :=
  { bidder_addr := addr
    bid_amount := amount
    bidder_signature := "bsig"
    tx_list := [] }

/-- A chain registry holding chain 1 with gas limit 1000 and seller `0xS`. -/
def sampleChains : ChainRegistry :=
  [(1, { gas_limit := 1000, registered_sellers := ["0xS"] })]

/-- Auction queues holding an empty queue for chain 1. -/
def sampleQueues : AuctionQueues := [(1, [])]

/-- A not-yet-ended worker state for auction `auction-a` with no bids. -/
def sampleRunningState : AuctionState :=
  { auction_info := mkInfo "auction-a" 500 0 10
    highest_bid := 0
    winner := none
    bids := []
    is_ended := false }

/-- An ended worker state for auction `auction-a`. -/
def sampleEndedState : AuctionState :=
  { auction_info := mkInfo "auction-a" 500 0 10
    highest_bid := 0
    winner := none
    bids := []
    is_ended := true }

/-- A running state (window 0..10) holding two equal 1500 bids, from
`0xA` first and `0xB` second. -/
def tieState : AuctionState :=
  { auction_info := mkInfo "auction-a" 500 0 10
    highest_bid := 0
    winner := none
    bids := [mkBid "0xA" 1500, mkBid "0xB" 1500]
    is_ended := false }

/-- A running state (window 0..10) holding a 1000 bid from `0xA` and then
a 1500 bid from `0xB`. -/
def twoBidState : AuctionState :=
  { auction_info := mkInfo "auction-a" 500 0 10
    highest_bid := 0
    winner := none
    bids := [mkBid "0xA" 1000, mkBid "0xB" 1500]
    is_ended := false }

/- ---------------------------------------------------------------------
Theorems
--------------------------------------------------------------------- -/

/-- C10: for every prior worker state — including a running, not-yet-ended
auction that already holds bids — `start_auction` returns `Ok` and replaces
the state with a fresh `AuctionState` (`highest_bid 0`, no winner, no bids,
not ended); it never fails, is independent of the previous state, and any
bids held for the previous auction are discarded. -/
theorem claim_C10_theorem :
    ∀ (prev : Option AuctionState) (auction_id : AuctionId) (info : AuctionInfo),
      AuctionWorker.start_auction prev auction_id info
        = (Except.ok (),
           some { auction_info := info, highest_bid := 0, winner := none,
                  bids := [], is_ended := false })
      ∧ AuctionWorker.start_auction prev auction_id info
          = AuctionWorker.start_auction none auction_id info := by
  intro prev auction_id info
  exact ⟨rfl, rfl⟩

/-- Helper for C9: `record_bid` never reports insufficient funds. -/
theorem record_bid_ne_insufficient
    (auctions : AuctionsStore) (chain_id : ChainId) (auction_id : AuctionId) (bid : Bid) :
    ServicesAuctionManager.record_bid auctions chain_id auction_id bid
      ≠ Except.error AuctionError.InsufficientFunds := by
  unfold ServicesAuctionManager.record_bid
  cases h1 : List.lookup chain_id auctions with
  | none => simp
  | some chain_auctions =>
    cases h2 : List.lookup auction_id chain_auctions with
    | none => simp [h2]
    | some auction_state =>
      by_cases h : auction_state.is_ended <;> simp [h2, h]

/-- C9: the upstream bid admission check `validate_bid_amount` rejects a
bid with `InsufficientFunds` exactly when the amount exceeds 10^9; an
amount of exactly 10^9 passes; and the services-layer `submit_bid`, which
applies the check once before recording the bid, reports
`InsufficientFunds` exactly under the same condition. -/
theorem claim_C9_theorem :
    (∀ a : Nat,
      ServicesAuctionManager.validate_bid_amount a
          = Except.error AuctionError.InsufficientFunds ↔ 1000000000 < a)
    ∧ ServicesAuctionManager.validate_bid_amount 1000000000 = Except.ok ()
    ∧ (∀ (auctions : AuctionsStore) (chain_id : ChainId) (auction_id : AuctionId) (bid : Bid),
        ServicesAuctionManager.submit_bid auctions chain_id auction_id bid
            = Except.error AuctionError.InsufficientFunds
          ↔ 1000000000 < bid.bid_amount) := by
  have hval : ∀ a : Nat,
      ServicesAuctionManager.validate_bid_amount a
          = Except.error AuctionError.InsufficientFunds ↔ 1000000000 < a := by
    intro a
    unfold ServicesAuctionManager.validate_bid_amount
    by_cases h : 1000000000 < a
    · simp [h]
    · simp [h]
  refine ⟨hval, rfl, ?_⟩
  intro auctions chain_id auction_id bid
  have hsig : ServicesAuctionManager.validate_buyer_signature bid = Except.ok () := rfl
  by_cases h : 1000000000 < bid.bid_amount
  · have hv : ServicesAuctionManager.validate_bid_amount bid.bid_amount
        = Except.error AuctionError.InsufficientFunds := (hval bid.bid_amount).mpr h
    simp [ServicesAuctionManager.submit_bid, hsig, hv, h]
  · have hv : ServicesAuctionManager.validate_bid_amount bid.bid_amount = Except.ok () := by
      unfold ServicesAuctionManager.validate_bid_amount
      simp [h]
    simp [ServicesAuctionManager.submit_bid, hsig, hv, h,
      record_bid_ne_insufficient auctions chain_id auction_id bid]

/-- C9 witness: a bid of 10^9 + 1 is rejected with insufficient funds. -/
theorem claim_C9_witness :
    1000000000 < 1000000001
    ∧ ServicesAuctionManager.validate_bid_amount 1000000001
        = Except.error AuctionError.InsufficientFunds :=
  ⟨by norm_num, (claim_C9_theorem.1 1000000001).mpr (by norm_num)⟩

/-- C8: the id built by `AuctionInfo::new` is the lowercase hex encoding of
the SHA-256 of the big-endian field concatenation required by the spec
(`specAuctionId`), and is therefore a pure function of those fields: two
records built from equal fields get equal ids. -/
theorem claim_C8_theorem :
    (∀ (c b : Nat) (s : String) (z t e : Nat) (g : String),
      (AuctionInfo.new c b s z t e g).id = specAuctionId c b s z t e g)
    ∧ (∀ (c b : Nat) (s : String) (z t e : Nat) (g : String)
         (c' b' : Nat) (s' : String) (z' t' e' : Nat) (g' : String),
        c = c' → b = b' → s = s' → z = z' → t = t' → e = e' → g = g' →
        (AuctionInfo.new c b s z t e g).id = (AuctionInfo.new c' b' s' z' t' e' g').id) := by
  constructor
  · intro c b s z t e g
    show compute_hash
        [beBytes8 c, beBytes8 b, strBytes s, beBytes8 z, beBytes8 t, beBytes8 e, strBytes g]
      = specAuctionId c b s z t e g
    unfold compute_hash specAuctionId
    rw [show [beBytes8 c, beBytes8 b, strBytes s, beBytes8 z, beBytes8 t, beBytes8 e,
        strBytes g].foldl (fun acc i => acc ++ i) []
      = ((((((([] ++ beBytes8 c) ++ beBytes8 b) ++ strBytes s) ++ beBytes8 z) ++ beBytes8 t)
          ++ beBytes8 e) ++ strBytes g) from rfl]
    simp [List.append_assoc]
  · intro c b s z t e g c' b' s' z' t' e' g' h1 h2 h3 h4 h5 h6 h7
    subst h1; subst h2; subst h3; subst h4; subst h5; subst h6; subst h7
    rfl

/-- C8 witness: equal concrete fields give equal concrete ids. -/
theorem claim_C8_witness :
    (100 : Nat) = 100
    ∧ (AuctionInfo.new 1 100 "0xS" 500 1000 3000 "sig").id
        = (AuctionInfo.new 1 100 "0xS" 500 1000 3000 "sig").id :=
  ⟨rfl, claim_C8_theorem.2 1 100 "0xS" 500 1000 3000 "sig" 1 100 "0xS" 500 1000 3000 "sig"
    rfl rfl rfl rfl rfl rfl rfl⟩

/-- C4 counterexample: two `AuctionInfo` records with equal `start_time`
but different `auction_id`s are treated as equal by the source `Ord` and
`PartialEq` (both compare only `start_time`), contradicting the claimed
tie-break by `auction_id`. -/
theorem claim_C4_counterexample :
    AuctionInfo.cmp (mkInfo "id-a" 500 5 600) (mkInfo "id-b" 500 5 600) = Ordering.eq
    ∧ AuctionInfo.eqImpl (mkInfo "id-a" 500 5 600) (mkInfo "id-b" 500 5 600) = true
    ∧ (mkInfo "id-a" 500 5 600).id ≠ (mkInfo "id-b" 500 5 600).id := by
  refine ⟨by decide, by decide, by decide⟩

/-- C4 (amended): the registry ordering on `AuctionInfo` is ascending
`start_time` only, and the source equality is `start_time` equality; the
`auction_id` plays no role, so records with equal `start_time` compare
equal regardless of their ids and the pop order among them is not
id-determined. -/
theorem claim_C4_theorem :
    ∀ a b : AuctionInfo,
      (AuctionInfo.cmp a b = Ordering.lt ↔ a.start_time < b.start_time)
      ∧ (AuctionInfo.cmp a b = Ordering.eq ↔ a.start_time = b.start_time)
      ∧ (AuctionInfo.cmp a b = Ordering.gt ↔ b.start_time < a.start_time)
      ∧ (AuctionInfo.eqImpl a b = true ↔ a.start_time = b.start_time) := by
  intro a b
  refine ⟨Nat.compare_eq_lt, Nat.compare_eq_eq, Nat.compare_eq_gt, ?_⟩
  simp [AuctionInfo.eqImpl]

/-- C4 witness: the ordering at concrete records with distinct start times. -/
theorem claim_C4_witness :
    (mkInfo "id-a" 500 3 600).start_time < (mkInfo "id-b" 500 7 600).start_time
    ∧ AuctionInfo.cmp (mkInfo "id-a" 500 3 600) (mkInfo "id-b" 500 7 600) = Ordering.lt :=
  ⟨by decide,
   (claim_C4_theorem (mkInfo "id-a" 500 3 600) (mkInfo "id-b" 500 7 600)).1.mpr (by decide)⟩

/-- C3 counterexample: on a held state that is ended and whose auction id
differs from the submitted one, the worker returns `AuctionEnded`, not the
`InvalidAuctionId` the claim requires for an id mismatch (the source checks
`is_ended` first). -/
theorem claim_C3_counterexample :
    sampleEndedState.auction_info.id ≠ "auction-b"
    ∧ (AuctionWorker.submit_bid 1 (some sampleEndedState) "auction-b" (mkBid "0xA" 1000)).1
        = Except.error AuctionError.AuctionEnded
    ∧ (AuctionWorker.submit_bid 1 (some sampleEndedState) "auction-b" (mkBid "0xA" 1000)).1
        ≠ Except.error (AuctionError.InvalidAuctionId "auction-b") := by
  refine ⟨by decide, rfl, ?_⟩
  intro h
  have heq : AuctionError.AuctionEnded = AuctionError.InvalidAuctionId "auction-b" := by
    have h2 : (AuctionWorker.submit_bid 1 (some sampleEndedState) "auction-b"
        (mkBid "0xA" 1000)).1 = Except.error AuctionError.AuctionEnded := rfl
    exact Except.error.inj (h2.symm.trans h)
  exact AuctionError.noConfusion heq

/-- C3 (amended): `submit_bid` returns `NoAuctions` when the worker holds no
state; returns `AuctionEnded` whenever the held state is ended (this check
precedes the id check); returns `InvalidAuctionId` when the held state is
not ended and its auction id differs; otherwise appends the bid at the end
of the bids list, leaving the previously stored bids and all other fields
unchanged, and returns an acknowledgment string. -/
theorem claim_C3_theorem :
    ∀ (chain_id : ChainId) (state : Option AuctionState) (auction_id : AuctionId) (bid : Bid),
      (state = none →
        AuctionWorker.submit_bid chain_id state auction_id bid
          = (Except.error AuctionError.NoAuctions, none))
      ∧ (∀ st, state = some st → st.is_ended = true →
          AuctionWorker.submit_bid chain_id state auction_id bid
            = (Except.error AuctionError.AuctionEnded, some st))
      ∧ (∀ st, state = some st → st.is_ended = false → st.auction_info.id ≠ auction_id →
          AuctionWorker.submit_bid chain_id state auction_id bid
            = (Except.error (AuctionError.InvalidAuctionId auction_id), some st))
      ∧ (∀ st, state = some st → st.is_ended = false → st.auction_info.id = auction_id →
          AuctionWorker.submit_bid chain_id state auction_id bid
            = (Except.ok s!"[Worker {chain_id}] ACK: Auction {auction_id} bid accepted.",
               some { st with bids := st.bids ++ [bid] })) := by
  intro chain_id state auction_id bid
  refine ⟨?_, ?_, ?_, ?_⟩
  · intro h; subst h; rfl
  · intro st h hend; subst h
    simp [AuctionWorker.submit_bid, hend]
  · intro st h hend hid; subst h
    simp [AuctionWorker.submit_bid, hend, hid]
  · intro st h hend hid; subst h
    simp [AuctionWorker.submit_bid, hend, hid]

/-- C3 witness: the success path appends the submitted bid. -/
theorem claim_C3_witness :
    sampleRunningState.is_ended = false
    ∧ sampleRunningState.auction_info.id = "auction-a"
    ∧ (AuctionWorker.submit_bid 1 (some sampleRunningState) "auction-a" (mkBid "0xA" 1000)).2
        = some { sampleRunningState with
                   bids := sampleRunningState.bids ++ [mkBid "0xA" 1000] } :=
  ⟨rfl, rfl,
   congrArg Prod.snd
     ((claim_C3_theorem 1 (some sampleRunningState) "auction-a" (mkBid "0xA" 1000)).2.2.2
       sampleRunningState rfl rfl rfl)⟩
/-- Helper shared by C2 and C5: every error that `submit_auction_info`
can return is an `InvalidChainId` or a `SellerNotRegistered`; no
signature, gas-limit or timing error is reachable. -/
theorem submit_auction_info_error_shape :
    ∀ (chains : ChainRegistry) (queues : AuctionQueues) (info : AuctionInfo)
      (e : RegistryError),
      RegistryService.submit_auction_info chains queues info = Except.error e →
      (∃ c, e = RegistryError.InvalidChainId c)
        ∨ (∃ s, e = RegistryError.SellerNotRegistered s) := by
  intro chains queues info e h
  unfold RegistryService.submit_auction_info RegistryService.validate_auction_info at h
  by_cases h1 : ChainRegistry.validate_chain_id chains info.chain_id
  · by_cases h2 : ChainRegistry.is_valid_seller chains info.chain_id info.seller_address
    · simp only [h1, h2, Bool.not_true, Bool.false_eq_true, if_false] at h
      unfold AuctionQueues.store_auction_info at h
      cases hq : List.lookup info.chain_id queues with
      | none =>
        rw [hq] at h
        exact Or.inl ⟨info.chain_id, (Except.error.inj h).symm⟩
      | some queue =>
        rw [hq] at h
        exact absurd h (by simp)
    · simp only [h1, h2, Bool.not_true, Bool.not_false, Bool.false_eq_true, if_false,
        if_true] at h
      exact Or.inr ⟨info.seller_address, (Except.error.inj h).symm⟩
  · rw [Bool.not_eq_true] at h1
    simp only [h1, Bool.not_false, if_true] at h
    exact Or.inl ⟨info.chain_id, (Except.error.inj h).symm⟩

theorem claim_C2_counterexample :
    ChainRegistry.get_max_gas_limit sampleChains 1 = some 1000
    ∧ (mkInfo "over-gas" 2000 0 1000).blockspace_size = 2000
    ∧ RegistryService.submit_auction_info sampleChains sampleQueues (mkInfo "over-gas" 2000 0 1000)
        = Except.ok [(1, [mkInfo "over-gas" 2000 0 1000])]
    ∧ RegistryService.submit_auction_info sampleChains sampleQueues (mkInfo "over-gas" 2000 0 1000)
        ≠ Except.error RegistryError.InvalidGasLimit := by
  refine ⟨rfl, rfl, rfl, ?_⟩
  intro h
  have h2 : RegistryService.submit_auction_info sampleChains sampleQueues
      (mkInfo "over-gas" 2000 0 1000) = Except.ok [(1, [mkInfo "over-gas" 2000 0 1000])] := rfl
  rw [h2] at h
  exact Except.noConfusion h

theorem claim_C2_theorem :
    ∀ (chains : ChainRegistry) (queues : AuctionQueues) (info : AuctionInfo),
      (ChainRegistry.validate_chain_id chains info.chain_id = false →
        RegistryService.submit_auction_info chains queues info
          = Except.error (RegistryError.InvalidChainId info.chain_id))
      ∧ (ChainRegistry.validate_chain_id chains info.chain_id = true →
         ChainRegistry.is_valid_seller chains info.chain_id info.seller_address = false →
          RegistryService.submit_auction_info chains queues info
            = Except.error (RegistryError.SellerNotRegistered info.seller_address))
      ∧ (∀ queue, ChainRegistry.validate_chain_id chains info.chain_id = true →
          ChainRegistry.is_valid_seller chains info.chain_id info.seller_address = true →
          List.lookup info.chain_id queues = some queue →
          RegistryService.submit_auction_info chains queues info
            = Except.ok (AuctionQueues.set queues info.chain_id (info :: queue)))
      ∧ (∀ e, RegistryService.submit_auction_info chains queues info = Except.error e →
          (∃ c, e = RegistryError.InvalidChainId c)
            ∨ (∃ s, e = RegistryError.SellerNotRegistered s)) := by
  intro chains queues info
  refine ⟨?_, ?_, ?_, fun e h => submit_auction_info_error_shape chains queues info e h⟩
  · intro h1
    simp [RegistryService.submit_auction_info, RegistryService.validate_auction_info, h1]
  · intro h1 h2
    simp [RegistryService.submit_auction_info, RegistryService.validate_auction_info, h1, h2]
  · intro queue h1 h2 hq
    simp [RegistryService.submit_auction_info, RegistryService.validate_auction_info, h1, h2,
      AuctionQueues.store_auction_info, hq]

theorem claim_C2_witness :
    ChainRegistry.validate_chain_id sampleChains (mkInfo "valid" 500 1000 1500).chain_id = true
    ∧ ChainRegistry.is_valid_seller sampleChains (mkInfo "valid" 500 1000 1500).chain_id
        (mkInfo "valid" 500 1000 1500).seller_address = true
    ∧ List.lookup (mkInfo "valid" 500 1000 1500).chain_id sampleQueues = some []
    ∧ RegistryService.submit_auction_info sampleChains sampleQueues (mkInfo "valid" 500 1000 1500)
        = Except.ok (AuctionQueues.set sampleQueues (mkInfo "valid" 500 1000 1500).chain_id
            [mkInfo "valid" 500 1000 1500]) :=
  ⟨by decide, by decide, rfl,
   (claim_C2_theorem sampleChains sampleQueues (mkInfo "valid" 500 1000 1500)).2.2.1
     [] (by decide) (by decide) rfl⟩

theorem claim_C5_counterexample :
    (mkInfo "t499" 500 1000 1499).end_time = (mkInfo "t499" 500 1000 1499).start_time + 499
    ∧ RegistryService.submit_auction_info sampleChains sampleQueues (mkInfo "t499" 500 1000 1499)
        = Except.ok [(1, [mkInfo "t499" 500 1000 1499])]
    ∧ RegistryService.submit_auction_info sampleChains sampleQueues (mkInfo "t499" 500 1000 1499)
        ≠ Except.error RegistryError.InvalidAuctionTime := by
  refine ⟨rfl, rfl, ?_⟩
  intro h
  have h2 : RegistryService.submit_auction_info sampleChains sampleQueues
      (mkInfo "t499" 500 1000 1499) = Except.ok [(1, [mkInfo "t499" 500 1000 1499])] := rfl
  rw [h2] at h
  exact Except.noConfusion h

theorem claim_C5_theorem :
    (∀ (chains : ChainRegistry) (queues : AuctionQueues) (info : AuctionInfo),
      RegistryService.submit_auction_info chains queues info
        ≠ Except.error RegistryError.InvalidAuctionTime)
    ∧ (∀ s e : Nat,
        SlaRegistry.validate_timings s e = Except.error AuctionError.InvalidAuctionTime
          ↔ e < s + 500)
    ∧ (∀ s : Nat,
        SlaRegistry.validate_timings s (s + 499) = Except.error AuctionError.InvalidAuctionTime
        ∧ SlaRegistry.validate_timings s (s + 500) = Except.ok ()) := by
  have hiff : ∀ s e : Nat,
      SlaRegistry.validate_timings s e = Except.error AuctionError.InvalidAuctionTime
        ↔ e < s + 500 := by
    intro s e
    unfold SlaRegistry.validate_timings
    by_cases h : e < s + 500
    · simp [h]
    · simp [h]
  refine ⟨?_, hiff, ?_⟩
  · intro chains queues info h
    rcases submit_auction_info_error_shape chains queues info
        RegistryError.InvalidAuctionTime h with ⟨c, hc⟩ | ⟨s, hs⟩
    · exact RegistryError.noConfusion hc
    · exact RegistryError.noConfusion hs
  · intro s
    exact ⟨(hiff s (s + 499)).mpr (by omega), by
      unfold SlaRegistry.validate_timings
      simp⟩

theorem claim_C5_witness :
    RegistryService.submit_auction_info sampleChains sampleQueues (mkInfo "t499b" 500 1000 1499)
      ≠ Except.error RegistryError.InvalidAuctionTime
    ∧ SlaRegistry.validate_timings 1000 1499 = Except.error AuctionError.InvalidAuctionTime :=
  ⟨claim_C5_theorem.1 sampleChains sampleQueues (mkInfo "t499b" 500 1000 1499),
   (claim_C5_theorem.2.1 1000 1499).mpr (by norm_num)⟩
/-- Helper for C6: all minimal elements of a queue share one `start_time`. -/
theorem heapPeek_start_eq {q : List AuctionInfo} {x y : AuctionInfo}
    (hx : heapPeek q x) (hy : heapPeek q y) : x.start_time = y.start_time :=
  Nat.le_antisymm (hx.2 y hy.1) (hy.2 x hx.1)

/-- C6: `start_next_auction` returns none and leaves the whole manager
state — in particular the chain's registry queue — unchanged both when the
queue is empty and when the wall clock is earlier than the `start_time` of
the queue's head element; the head is not popped in either case. -/
theorem claim_C6_theorem :
    ∀ (now : Nat) (st : ManagerState) (c : ChainId) (res : Option AuctionId)
      (st' : ManagerState),
      StartNext now st c res st' →
      (st.queueOf c = [] → res = none ∧ st' = st)
      ∧ (∀ x, heapPeek (st.queueOf c) x → now < x.start_time → res = none ∧ st' = st) := by
  intro now st c res st' h
  cases h with
  | emptyQueue hq =>
    exact ⟨fun _ => ⟨rfl, rfl⟩, fun x _ _ => ⟨rfl, rfl⟩⟩
  | notDue hpk hlt =>
    refine ⟨fun hq => ?_, fun x _ _ => ⟨rfl, rfl⟩⟩
    rw [hq] at hpk
    exact absurd hpk.1 (List.not_mem_nil _)
  | noWorker hpk hge hpop hw =>
    refine ⟨fun hq => ?_, fun x hpk2 hlt2 => ?_⟩
    · rw [hq] at hpk
      exact absurd hpk.1 (List.not_mem_nil _)
    · have heq := heapPeek_start_eq hpk2 hpk
      omega
  | started hpk hge hpop hw =>
    refine ⟨fun hq => ?_, fun x hpk2 hlt2 => ?_⟩
    · rw [hq] at hpk
      exact absurd hpk.1 (List.not_mem_nil _)
    · have heq := heapPeek_start_eq hpk2 hpk
      omega

/-- C6 witness: on a queue whose head starts at time 100, a call at time 5
returns none and changes nothing. -/
theorem claim_C6_witness :
    StartNext 5
      { queues := [(1, [mkInfo "late" 500 100 800])], workers := [(1, none)], ongoing := [] }
      1 none
      { queues := [(1, [mkInfo "late" 500 100 800])], workers := [(1, none)], ongoing := [] }
    ∧ heapPeek
        (ManagerState.queueOf
          { queues := [(1, [mkInfo "late" 500 100 800])], workers := [(1, none)], ongoing := [] }
          1)
        (mkInfo "late" 500 100 800)
    ∧ (5 : Nat) < (mkInfo "late" 500 100 800).start_time
    ∧ ((none : Option AuctionId) = none
       ∧ ({ queues := [(1, [mkInfo "late" 500 100 800])], workers := [(1, none)],
            ongoing := [] } : ManagerState)
          = { queues := [(1, [mkInfo "late" 500 100 800])], workers := [(1, none)],
              ongoing := [] }) := by
  have hpk : heapPeek
      (ManagerState.queueOf
        { queues := [(1, [mkInfo "late" 500 100 800])], workers := [(1, none)], ongoing := [] }
        1)
      (mkInfo "late" 500 100 800) := by
    constructor
    · show mkInfo "late" 500 100 800 ∈ [mkInfo "late" 500 100 800]
      exact List.mem_singleton.mpr rfl
    · intro y hy
      have : y = mkInfo "late" 500 100 800 := List.mem_singleton.mp hy
      rw [this]
  have hrel : StartNext 5
      { queues := [(1, [mkInfo "late" 500 100 800])], workers := [(1, none)], ongoing := [] }
      1 none
      { queues := [(1, [mkInfo "late" 500 100 800])], workers := [(1, none)], ongoing := [] } :=
    StartNext.notDue hpk (by decide)
  exact ⟨hrel, hpk, by decide,
    (claim_C6_theorem 5 _ 1 none _ hrel).2 (mkInfo "late" 500 100 800) hpk (by decide)⟩

/-- Helper for C7: every element of a pop trace is drawn from the queue. -/
theorem popTrace_mem {q xs : List AuctionInfo} (h : PopTrace q xs) :
    ∀ y ∈ xs, y ∈ q := by
  induction h with
  | nil q => intro y hy; exact absurd hy (List.not_mem_nil y)
  | cons hpop htail ih =>
    intro y hy
    rcases List.mem_cons.mp hy with hy1 | hy2
    · subst hy1
      exact hpop.2.mem_iff.mpr (List.mem_cons_self _ _)
    · exact hpop.2.mem_iff.mpr (List.mem_cons_of_mem _ (ih y hy2))

/-- C7: the sequence of `AuctionInfo`s obtained by repeatedly popping one
chain's registry queue, with no interleaved insertions, is non-decreasing
in `start_time`. -/
theorem claim_C7_theorem :
    ∀ (q xs : List AuctionInfo), PopTrace q xs →
      xs.Pairwise (fun a b => a.start_time ≤ b.start_time) := by
  intro q xs h
  induction h with
  | nil q => exact List.Pairwise.nil
  | cons hpop htail ih =>
    refine List.Pairwise.cons (fun y hy => ?_) ih
    have hyq : y ∈ _ := popTrace_mem htail y hy
    have hymem : y ∈ _ := hpop.2.mem_iff.mpr (List.mem_cons_of_mem _ hyq)
    exact hpop.1 y hymem

/-- C7 witness: a concrete two-pop trace is non-decreasing. -/
theorem claim_C7_witness :
    PopTrace [mkInfo "p1" 500 10 900, mkInfo "p2" 500 20 900]
      [mkInfo "p1" 500 10 900, mkInfo "p2" 500 20 900]
    ∧ List.Pairwise (fun a b => a.start_time ≤ b.start_time)
        [mkInfo "p1" 500 10 900, mkInfo "p2" 500 20 900] := by
  have h1 : heapPopRel [mkInfo "p1" 500 10 900, mkInfo "p2" 500 20 900]
      (mkInfo "p1" 500 10 900) [mkInfo "p2" 500 20 900] := by
    constructor
    · intro y hy
      rcases List.mem_cons.mp hy with h | h
      · rw [h]
      · have : y = mkInfo "p2" 500 20 900 := List.mem_singleton.mp h
        rw [this]; decide
    · exact List.Perm.refl _
  have h2 : heapPopRel [mkInfo "p2" 500 20 900] (mkInfo "p2" 500 20 900) [] := by
    constructor
    · intro y hy
      have : y = mkInfo "p2" 500 20 900 := List.mem_singleton.mp hy
      rw [this]
    · exact List.Perm.refl _
  have htr : PopTrace [mkInfo "p1" 500 10 900, mkInfo "p2" 500 20 900]
      [mkInfo "p1" 500 10 900, mkInfo "p2" 500 20 900] :=
    PopTrace.cons h1 (PopTrace.cons h2 (PopTrace.nil []))
  exact ⟨htr, claim_C7_theorem _ _ htr⟩
/-- C1 counterexample: at end time, the unstable-sort contract admits the
outcome in which the later-arrived of two equal 1500 bids wins: the
end-of-auction pass may produce winner `0xB` although the earliest-index
bid with the winning amount is `0xA`'s. -/
theorem claim_C1_counterexample :
    ProcessAuction 10 (some tieState)
      (some (endedUpdate tieState [mkBid "0xB" 1500, mkBid "0xA" 1500]))
    ∧ (endedUpdate tieState [mkBid "0xB" 1500, mkBid "0xA" 1500]).is_ended = true
    ∧ (endedUpdate tieState [mkBid "0xB" 1500, mkBid "0xA" 1500]).bids ≠ []
    ∧ firstBidderWith tieState.bids
        (endedUpdate tieState [mkBid "0xB" 1500, mkBid "0xA" 1500]).highest_bid = some "0xA"
    ∧ (endedUpdate tieState [mkBid "0xB" 1500, mkBid "0xA" 1500]).winner = some "0xB"
    ∧ (some "0xB" : Option String) ≠ some "0xA" := by
  have hsort : sortedDescBids tieState.bids [mkBid "0xB" 1500, mkBid "0xA" 1500] := by
    constructor
    · exact List.Perm.swap _ _ _
    · decide
  have hrel : ProcessAuction 10 (some tieState)
      (some (endedUpdate tieState [mkBid "0xB" 1500, mkBid "0xA" 1500])) :=
    ProcessAuction.ends rfl (by decide) (by decide) hsort
  exact ⟨hrel, rfl, by decide, by decide, rfl, by decide⟩

/-- C1 (amended): whenever the end-of-auction pass turns a not-yet-ended
state into an ended one with a non-empty bids list, the winner is the
address of some stored bid whose amount equals `highest_bid`, and that
amount is maximal among all stored bids; which bid wins among several
with the maximal amount is not specified (the sort is unstable). -/
theorem claim_C1_theorem :
    ∀ (now : Nat) (st post : AuctionState),
      ProcessAuction now (some st) (some post) →
      st.is_ended = false → post.is_ended = true → post.bids ≠ [] →
      ∃ b, b ∈ st.bids ∧ post.winner = some b.bidder_addr
        ∧ b.bid_amount = post.highest_bid
        ∧ ∀ b2 ∈ st.bids, b2.bid_amount ≤ b.bid_amount := by
  intro now st post h hpre hpost hne
  cases h with
  | alreadyEnded hend =>
    rw [hend] at hpre
    exact Bool.noConfusion hpre
  | notStarted hend hlt =>
    rw [hpre] at hpost
    exact Bool.noConfusion hpost
  | ends hend hs he hsort =>
    rcases hsort with ⟨hperm, hsorted⟩
    rename_i sorted
    cases sorted with
    | nil =>
      simp [endedUpdate] at hne
    | cons top rest =>
      refine ⟨top, ?_, rfl, rfl, ?_⟩
      · exact hperm.mem_iff.mpr (List.mem_cons_self _ _)
      · intro b2 hb2
        have hmem : b2 ∈ top :: rest := hperm.mem_iff.mp hb2
        rcases List.mem_cons.mp hmem with h1 | h2
        · rw [h1]
        · exact (List.pairwise_cons.mp hsorted).1 b2 h2
  | running hend hs hlt hsort =>
    rename_i sorted
    have hrun : (runningUpdate st sorted).is_ended = st.is_ended := by
      cases sorted <;> rfl
    rw [hrun, hpre] at hpost
    exact Bool.noConfusion hpost

/-- C1 witness: with bids 1000 then 1500 the pass picks the 1500 bid. -/
theorem claim_C1_witness :
    ProcessAuction 10 (some twoBidState)
      (some (endedUpdate twoBidState [mkBid "0xB" 1500, mkBid "0xA" 1000]))
    ∧ twoBidState.is_ended = false
    ∧ (endedUpdate twoBidState [mkBid "0xB" 1500, mkBid "0xA" 1000]).is_ended = true
    ∧ (endedUpdate twoBidState [mkBid "0xB" 1500, mkBid "0xA" 1000]).bids ≠ []
    ∧ ∃ b, b ∈ twoBidState.bids
        ∧ (endedUpdate twoBidState [mkBid "0xB" 1500, mkBid "0xA" 1000]).winner
            = some b.bidder_addr
        ∧ b.bid_amount = (endedUpdate twoBidState [mkBid "0xB" 1500, mkBid "0xA" 1000]).highest_bid
        ∧ ∀ b2 ∈ twoBidState.bids, b2.bid_amount ≤ b.bid_amount := by
  have hsort : sortedDescBids twoBidState.bids [mkBid "0xB" 1500, mkBid "0xA" 1000] := by
    constructor
    · exact List.Perm.swap _ _ _
    · decide
  have hrel : ProcessAuction 10 (some twoBidState)
      (some (endedUpdate twoBidState [mkBid "0xB" 1500, mkBid "0xA" 1000])) :=
    ProcessAuction.ends rfl (by decide) (by decide) hsort
  have hne : (endedUpdate twoBidState [mkBid "0xB" 1500, mkBid "0xA" 1000]).bids ≠ [] := by
    decide
  exact ⟨hrel, rfl, rfl, hne,
    claim_C1_theorem 10 twoBidState _ hrel rfl rfl hne⟩
